import Mathlib

/-!
Verification of the stratisd core against its specification.

This file shallowly embeds the two source files under scrutiny:

* `src/engine/strat_engine/mdv.rs` — the per-pool Metadata Volume (MDV):
  `save_fs`, `rm_fs`, `check`, `filesystems` acting on the `filesystems/`
  directory of the mounted MDV.
* `src/engine/strat_engine/engine.rs` — the `StratEngine`: pool registry
  (`Table`), `create_pool`, `rename_pool`, and startup discovery.

The MDV directory is modelled as an association list from file names to file
contents (byte lists).  Collaborator code that is not part of this repository
(serde_json, the uuid crate's hex rendering) is modelled by concrete injective
encodings; code of this repository that is not under `src/` (`structures.rs`
with `Table`, the `rename_pool_pre!` / `calculate_redundancy!` macros,
`StratPool`) is modelled from the spec, as marked in each doc comment.
-/

set_option autoImplicit false

/-- Snapshot of one filesystem's metadata (`FilesystemSave` in
`serde_structs.rs`, not under `src/`).  The spec says the exact field set is a
collaborator concern (identity, size, and so on); fields are modelled as
opaque numeric tokens. -/
structure FilesystemSave where
  name : Nat
  uuid : Nat
  size : Nat
deriving DecidableEq

/-- Modelled from the spec: an injective, self-delimiting encoding of one
numeric field, standing in for serde_json's rendering of that field.  The
properties relied on are exactly those of the real JSON encoding: injectivity
and the fact that the decoder consumes a well-defined span. -/
def encodeNat (n : Nat) : List Nat :=
  List.replicate n 1 ++ [0]

/-- Decoder matching `encodeNat`: consumes the encoded prefix and returns the
remaining bytes. -/
def decodeNat : List Nat → Option (Nat × List Nat)
  | [] => none
  | b :: rest =>
    if b = 0 then some (0, rest)
    else if b = 1 then
      match decodeNat rest with
      | none => none
      | some (n, r) => some (n + 1, r)
    else none

/-- Modelled from the spec: `serde_json::to_string(&fs.to_save())` — the
serialized form of a `FilesystemSave`, as the byte content of a file. -/
def encodeFs (f : FilesystemSave) : List Nat :=
  encodeNat f.name ++ (encodeNat f.uuid ++ encodeNat f.size)

/-- Modelled from the spec: `serde_json::from_slice` — deserialization of a
whole file.  Like serde_json, it fails if bytes remain after the document
(trailing characters are an error). -/
def decodeFs (data : List Nat) : Option FilesystemSave :=
  match decodeNat data with
  | none => none
  | some (nm, r1) =>
    match decodeNat r1 with
    | none => none
    | some (u, r2) =>
      match decodeNat r2 with
      | none => none
      | some (sz, r3) => if r3 = [] then some ⟨nm, u, sz⟩ else none

/-- File names appearing in the MDV's `filesystems/` directory.  `save_fs`
builds names as `<uuid.simple()>.json` / `<uuid.simple()>.temp`; these two
shapes are represented symbolically (the uuid crate's simple hex rendering is
injective and nonempty, so distinct uuids give distinct names and neither
shape is the literal name ".temp").  `other` covers any name not of those two
shapes. -/
inductive FileName where
  | json (u : Nat)
  | temp (u : Nat)
  | other (s : List Char)
deriving DecidableEq

/-- Extension ".json" as characters. -/
def jsonExt : List Char := ['.', 'j', 's', 'o', 'n']

/-- Extension ".temp" as characters. -/
def tempExt : List Char := ['.', 't', 'e', 'm', 'p']

/-- The file name as the final path component (a character string), with the
uuid crate's simple hex rendering modelled by `Nat.toDigits 16`. -/
def fileNameComponent : FileName → List Char
  | FileName.json u => Nat.toDigits 16 u ++ jsonExt
  | FileName.temp u => Nat.toDigits 16 u ++ tempExt
  | FileName.other s => s

/-- Semantics of the source's `dir_e.path().ends_with(".temp")`: Rust's
`Path::ends_with` matches whole path components only, so against the
single-component child `".temp"` it holds exactly when the entry's final
component (its file name) is the literal string ".temp". -/
def rustPathEndsWithTemp (n : FileName) : Bool :=
  fileNameComponent n == tempExt

/-- The predicate the spec speaks of: the file NAME ends (character-wise) in
".temp".  This is what `ends_with` would mean on strings, as opposed to Rust
path components. -/
def strSuffixTemp (n : FileName) : Bool :=
  tempExt.isSuffixOf (fileNameComponent n)

/-- State of the MDV's `filesystems/` directory: an association list from file
names to file contents, one entry per file. -/
abbrev MdvDir := List (FileName × List Nat)

/-- Content of the file named `n`, if present. -/
def getFile : MdvDir → FileName → Option (List Nat)
  | [], _ => none
  | (m, c) :: rest, n => if m = n then some c else getFile rest n

/-- Remove the file named `n` from the directory. -/
def eraseFile : MdvDir → FileName → MdvDir
  | [], _ => []
  | (m, c) :: rest, n =>
    if m = n then eraseFile rest n else (m, c) :: eraseFile rest n

/-- Set the content of the file named `n` (creating or replacing it). -/
def setFile (d : MdvDir) (n : FileName) (c : List Nat) : MdvDir :=
  (n, c) :: eraseFile d n

/-- Semantics of the source's `OpenOptions::new().write(true).create(true)`
followed by `write_all` at offset zero: the open options do NOT truncate, so
writing `data` over an existing longer file leaves the old bytes beyond
`data.length` in place. -/
def writeNoTrunc (d : MdvDir) (n : FileName) (data : List Nat) : MdvDir :=
  match getFile d n with
  | none => setFile d n data
  | some old => setFile d n (data ++ old.drop data.length)

/-- Semantics of `std::fs::rename`: atomically moves `src` over `dst`,
replacing any existing destination.  (If the source does not exist the real
call errors; `save_fs` always calls it with the temp file just written.) -/
def renameEntry (d : MdvDir) (src dst : FileName) : MdvDir :=
  match getFile d src with
  | none => d
  | some c => setFile (eraseFile d src) dst c

/-- Embedding of `MetadataVol::save_fs` (mdv.rs lines 67-92): serialize the
snapshot, write it to `<uuid>.temp` (create, write, no truncate), flush and
fsync (no-ops in this crash-free model), then rename the temp file onto
`<uuid>.json`. -/
def MetadataVol.save_fs (d : MdvDir) (f : FilesystemSave) : MdvDir :=
  let data := encodeFs f
  let d1 := writeNoTrunc d (FileName.temp f.uuid) data
  renameEntry d1 (FileName.temp f.uuid) (FileName.json f.uuid)

/-- Error kinds of `std::io::ErrorKind` relevant to the embedded code. -/
inductive IoErrKind where
  | notFound
  | permissionDenied
  | otherErr
deriving DecidableEq

/-- Semantics of `std::fs::remove_file` with fault injection: `fault` injects
an arbitrary I/O failure (the OS may fail for reasons the model cannot
derive); without a fault, removal succeeds when the file exists and reports
`notFound` when it does not. -/
def MetadataVol.removeEntry (d : MdvDir) (n : FileName) (fault : Option IoErrKind) :
    Except IoErrKind MdvDir :=
  match fault with
  | some k => Except.error k
  | none =>
    match getFile d n with
    | some _ => Except.ok (eraseFile d n)
    | none => Except.error IoErrKind.notFound

/-- Embedding of `MetadataVol::rm_fs` (mdv.rs lines 95-107): remove
`<uuid>.json`; a `NotFound` failure is swallowed (idempotent deletion), any
other error is propagated.  Returns the resulting directory on success. -/
def MetadataVol.rm_fs (d : MdvDir) (u : Nat) (fault : Option IoErrKind) :
    Except IoErrKind MdvDir :=
  match MetadataVol.removeEntry d (FileName.json u) fault with
  | Except.error e => if e = IoErrKind.notFound then Except.ok d else Except.error e
  | Except.ok d2 => Except.ok d2

/-- Embedding of `MetadataVol::check` (mdv.rs lines 110-129): scan the
directory and remove every entry whose path satisfies
`path().ends_with(".temp")` (Rust component semantics, see
`rustPathEndsWithTemp`); removal failures are only logged, and the call always
returns Ok, so the model returns the new directory. -/
def MetadataVol.check (d : MdvDir) : MdvDir :=
  d.filter fun e => !(rustPathEndsWithTemp e.1)

/-- Embedding of `MetadataVol::filesystems` (mdv.rs lines 133-151): iterate
over the directory; entries whose path satisfies `ends_with(".temp")` (Rust
component semantics) are skipped; every other entry is read and deserialized,
and a deserialization failure aborts the whole call (`none`). -/
def MetadataVol.filesystems : MdvDir → Option (List FilesystemSave)
  | [] => some []
  | (n, c) :: rest =>
    if rustPathEndsWithTemp n then MetadataVol.filesystems rest
    else
      match decodeFs c with
      | none => none
      | some f =>
        match MetadataVol.filesystems rest with
        | none => none
        | some l => some (f :: l)

/-- Modelled from the spec: an in-memory pool (`StratPool` in `pool.rs`, not
under `src/`).  Only the attributes the engine claims touch are modelled: the
immutable UUID and the name, mutable via rename (§3 of the spec). -/
structure StratPool where
  uuid : Nat
  name : String
deriving DecidableEq

/-- Modelled from the spec: the registry `Table<StratPool>` of
`structures.rs` (not under `src/`), an index over entities keyed by UUID with
a secondary uniqueness constraint on name (spec §4.1). -/
abbrev Table := List StratPool

/-- Modelled from the spec (§4.1): membership test against the secondary name
index. -/
def Table.contains_name (t : Table) (n : String) : Bool :=
  t.any fun p => decide (p.name = n)

/-- Modelled from the spec (§4.1): lookup by primary key. -/
def Table.get_by_uuid (t : Table) (u : Nat) : Option StratPool :=
  t.find? fun p => decide (p.uuid = u)

/-- Modelled from the spec (§4.1): remove the entry with the given UUID,
transferring ownership to the caller (the removed value is read off with
`Table.get_by_uuid` beforehand). -/
def Table.remove_by_uuid (t : Table) (u : Nat) : Table :=
  t.filter fun p => !decide (p.uuid = u)

/-- Modelled from the spec (§4.1 and §4.5): store the entity; any prior
entries colliding with it on UUID or on name are removed first and returned
as the evicted result (first component); an empty eviction result means no
collision. -/
def Table.insert (t : Table) (p : StratPool) : List StratPool × Table :=
  (t.filter fun q => decide (q.uuid = p.uuid) || decide (q.name = p.name),
   p :: t.filter fun q => !(decide (q.uuid = p.uuid) || decide (q.name = p.name)))

deriving instance DecidableEq for Except

/-- Engine error kinds (`ErrorEnum` in `errors.rs`, surfaced in engine.rs),
restricted to the kinds the claims mention; `persistFailed` stands for the
arbitrary error returned by `pool.write_metadata()`. -/
inductive EngErr where
  | notFound
  | alreadyExists
  | invalid
  | persistFailed
deriving DecidableEq

/-- Result values of a rename (`RenameAction` in `types.rs`). -/
inductive RenameAction where
  | identity
  | renamed
deriving DecidableEq

/-- Modelled from the spec (§4.4): the `calculate_redundancy!` macro (not
under `src/`) — an unspecified redundancy selects the default scheme, code 0
is the supported NONE scheme, any other requested scheme is unsupported and
fails as Invalid before anything else in `create_pool` runs. -/
def calculate_redundancy : Option Nat → Except EngErr Unit
  | none => Except.ok ()
  | some 0 => Except.ok ()
  | some (_ + 1) => Except.error EngErr.invalid

/-- Embedding of `StratEngine::create_pool` (engine.rs lines 67-86): compute
the redundancy (failing early if unsupported), reject a name already in the
registry as AlreadyExists, otherwise build the pool (`StratPool::initialize`,
not under `src/`, modelled as a fresh pool carrying the given new UUID) and
insert it, discarding any eviction result exactly as the source does.
Returns the engine result paired with the registry afterward. -/
def StratEngine.create_pool (t : Table) (name : String) (newUuid : Nat)
    (redundancy : Option Nat) : Except EngErr Nat × Table :=
  match calculate_redundancy redundancy with
  | Except.error e => (Except.error e, t)
  | Except.ok _ =>
    if t.contains_name name then (Except.error EngErr.alreadyExists, t)
    else (Except.ok newUuid, (t.insert ⟨newUuid, name⟩).2)

/-- Embedding of `StratEngine::rename_pool` (engine.rs lines 92-108).  The
`rename_pool_pre!` macro is not under `src/` and is modelled from the spec
(§4.4): absent UUID is NotFound, a new name equal to the current name is the
Identity no-op, a new name already used by a different pool is AlreadyExists
with no mutation.  The body then follows engine.rs: remove the pool from the
registry, rename it in place, attempt to persist (`pool.write_metadata()`,
with failure injected through `persistFails`); on failure rename back to the
old name, reinsert, and propagate the error; on success reinsert under the
new name and report Renamed. -/
def StratEngine.rename_pool (t : Table) (u : Nat) (newName : String)
    (persistFails : Bool) : Except EngErr RenameAction × Table :=
  match t.get_by_uuid u with
  | none => (Except.error EngErr.notFound, t)
  | some pool =>
    if pool.name = newName then (Except.ok RenameAction.identity, t)
    else if t.contains_name newName then (Except.error EngErr.alreadyExists, t)
    else
      let t2 := t.remove_by_uuid u
      let renamed : StratPool := { pool with name := newName }
      if persistFails then
        (Except.error EngErr.persistFailed, (t2.insert { renamed with name := pool.name }).2)
      else
        (Except.ok RenameAction.renamed, (t2.insert renamed).2)

/-- An engine mutation, for stating the registry uniqueness invariant over
arbitrary operation sequences: a `create_pool` call (with the fresh UUID the
pool would be given) or a `rename_pool` call (with its persistence outcome). -/
inductive EngineOp where
  | create (name : String) (newUuid : Nat) (redundancy : Option Nat)
  | rename (uuid : Nat) (newName : String) (persistFails : Bool)
deriving DecidableEq

/-- Effect of one engine operation on the registry. -/
def applyOp (t : Table) : EngineOp → Table
  | EngineOp.create n u r => (StratEngine.create_pool t n u r).2
  | EngineOp.rename u n pf => (StratEngine.rename_pool t u n pf).2

/-- The registry uniqueness invariant (spec §3/§8): no two entries share a
UUID and no two entries share a name. -/
def tableInv (t : Table) : Prop :=
  (t.map StratPool.uuid).Nodup ∧ (t.map StratPool.name).Nodup

instance (t : Table) : Decidable (tableInv t) := by
  unfold tableInv; infer_instance

/-- Embedding of the discovery loop of `StratEngine::initialize` (engine.rs
lines 37-54), running over the already-set-up pools (`find_all` and
`StratPool::setup` are not under `src/`; the spec models discovery as
producing one set-up pool per device group, here the input list).  Each pool
is inserted; a non-empty eviction result aborts: the registry is drained into
`teardown_pools` (best-effort, result ignored by the source) and the call
fails as Invalid.  The error carries the drained registry contents, i.e. the
exact set of pools handed to `teardown_pools`. -/
def setupAllPoolsAux (table : Table) : List StratPool → Except (EngErr × List StratPool) Table
  | [] => Except.ok table
  | p :: rest =>
    let res := Table.insert table p
    if res.1.isEmpty then setupAllPoolsAux res.2 rest
    else Except.error (EngErr.invalid, res.2)

/-- Embedding of `StratEngine::initialize` (engine.rs lines 37-54), starting
from the default (empty) table. -/
def setupAllPools (discovered : List StratPool) : Except (EngErr × List StratPool) Table :=
  setupAllPoolsAux [] discovered

theorem getFile_setFile_self (d : MdvDir) (n : FileName) (c : List Nat) :
    getFile (setFile d n c) n = some c := by
  simp [setFile, getFile]

/-- C10: `save_fs` opens the `<uuid>.temp` file with create but without
truncate and writes from offset zero, so for every snapshot F: if no
`<uuid>.temp` file exists beforehand, after a successful `save_fs(F)` the file
`<uuid>.json` contains exactly the serialization of F; but if a stale
`<uuid>.temp` file longer than the serialization of F already exists, the
resulting `<uuid>.json` contains the serialization of F followed by the
(nonempty) trailing bytes of the stale file. -/
theorem save_fs_no_truncate_contents (d : MdvDir) (f : FilesystemSave) :
    (getFile d (FileName.temp f.uuid) = none →
      getFile (MetadataVol.save_fs d f) (FileName.json f.uuid) = some (encodeFs f)) ∧
    (∀ old : List Nat, getFile d (FileName.temp f.uuid) = some old →
      (encodeFs f).length < old.length →
      getFile (MetadataVol.save_fs d f) (FileName.json f.uuid) =
        some (encodeFs f ++ old.drop (encodeFs f).length) ∧
      old.drop (encodeFs f).length ≠ []) := by
  constructor
  · intro h
    simp [MetadataVol.save_fs, writeNoTrunc, renameEntry, h, getFile_setFile_self]
  · intro old h hlen
    constructor
    · simp [MetadataVol.save_fs, writeNoTrunc, renameEntry, h, getFile_setFile_self]
    · have hl : 0 < (old.drop (encodeFs f).length).length := by
        rw [List.length_drop]; omega
      exact List.length_pos.mp hl

/-- Witness for C10 at concrete inputs: an empty directory, and a directory
holding a stale 7-byte temp file for uuid 0 while the new serialization has 3
bytes. -/
theorem save_fs_no_truncate_contents_witness :
    getFile (MetadataVol.save_fs [] ⟨0, 0, 0⟩) (FileName.json 0) = some (encodeFs ⟨0, 0, 0⟩) ∧
    (getFile (MetadataVol.save_fs [(FileName.temp 0, [1, 1, 0, 1, 0, 1, 0])] ⟨0, 0, 0⟩)
        (FileName.json 0) =
      some (encodeFs ⟨0, 0, 0⟩ ++ List.drop (encodeFs ⟨0, 0, 0⟩).length [1, 1, 0, 1, 0, 1, 0]) ∧
      List.drop (encodeFs ⟨0, 0, 0⟩).length [1, 1, 0, 1, 0, 1, 0] ≠ []) := by
  exact ⟨(save_fs_no_truncate_contents [] ⟨0, 0, 0⟩).1 rfl,
    (save_fs_no_truncate_contents [(FileName.temp 0, [1, 1, 0, 1, 0, 1, 0])] ⟨0, 0, 0⟩).2
      [1, 1, 0, 1, 0, 1, 0] rfl (by decide)⟩

/-- C9: for every directory state and filesystem UUID, `rm_fs` returns success
when the `<uuid>.json` file does not exist (the underlying NotFound error is
swallowed: deletion is idempotent), and returns the underlying I/O error for
any removal failure other than file-not-found. -/
theorem rm_fs_spec (d : MdvDir) (u : Nat) :
    (getFile d (FileName.json u) = none → MetadataVol.rm_fs d u none = Except.ok d) ∧
    (∀ e : IoErrKind, ¬(e = IoErrKind.notFound) →
      MetadataVol.rm_fs d u (some e) = Except.error e) := by
  constructor
  · intro h
    simp [MetadataVol.rm_fs, MetadataVol.removeEntry, h]
  · intro e he
    simp [MetadataVol.rm_fs, MetadataVol.removeEntry, he]

/-- Witness for C9: removing uuid 0 from the empty directory succeeds; an
injected permission failure is propagated. -/
theorem rm_fs_spec_witness :
    MetadataVol.rm_fs [] 0 none = Except.ok [] ∧
    MetadataVol.rm_fs [] 0 (some IoErrKind.permissionDenied) =
      Except.error IoErrKind.permissionDenied := by
  exact ⟨(rm_fs_spec [] 0).1 rfl, (rm_fs_spec [] 0).2 IoErrKind.permissionDenied (by decide)⟩

/-- C1 evaluated at a failing input: a directory holding the temp file
"3.temp" (whose name does end, character-wise, in ".temp") and the committed
file "3.json".  `check()` removes nothing: Rust's `Path::ends_with` matches
whole path components only, so "3.temp" never matches ".temp" and the
leftover temp file survives the recovery pass, contradicting the claim that
every file whose name ends in .temp has been removed.  (The `<uuid>.json`
files are indeed left unchanged.) -/
theorem check_misses_temp_file :
    MetadataVol.check [(FileName.temp 3, [1]), (FileName.json 3, encodeFs ⟨1, 3, 2⟩)] =
      [(FileName.temp 3, [1]), (FileName.json 3, encodeFs ⟨1, 3, 2⟩)] ∧
    strSuffixTemp (FileName.temp 3) = true := by decide

/-- C2 evaluated at a failing input: a directory holding only the temp file
"3.temp", whose content is a fully-written serialized snapshot.  The claim
says `filesystems()` excludes files whose names end in ".temp"; the code's
component-wise `Path::ends_with(".temp")` never matches "3.temp", so the temp
file is read, deserialized and included in the result. -/
theorem filesystems_includes_temp_file :
    MetadataVol.filesystems [(FileName.temp 3, encodeFs ⟨1, 3, 2⟩)] = some [⟨1, 3, 2⟩] ∧
    strSuffixTemp (FileName.temp 3) = true := by decide

/-- C3 evaluated at a failing input: the directory holds a stale temp file
"0.temp" of 6 bytes (the serialization of the snapshot ⟨1,1,1⟩, left over
from an interrupted save that `check()` fails to clean up).  `save_fs` of the
snapshot ⟨0,0,0⟩ (3-byte serialization, uuid 0) then succeeds, but because
the temp file is opened without truncation the renamed "0.json" carries 3
stale trailing bytes, and `filesystems()` fails to deserialize it and returns
an error instead of a set containing the snapshot. -/
theorem roundtrip_fails_after_stale_temp :
    MetadataVol.filesystems
        (MetadataVol.save_fs [(FileName.temp 0, encodeFs ⟨1, 1, 1⟩)] ⟨0, 0, 0⟩) = none := by
  decide

theorem get_by_uuid_uuid (t : Table) (u : Nat) (p : StratPool)
    (h : t.get_by_uuid u = some p) : p.uuid = u := by
  unfold Table.get_by_uuid at h
  have hb := List.find?_some h
  simp only [decide_eq_true_eq] at hb
  exact hb

theorem tableInv_filter (t : Table) (q : StratPool → Bool) (h : tableInv t) :
    tableInv (t.filter q) := by
  obtain ⟨hu, hn⟩ := h
  constructor
  · exact List.Nodup.sublist ((List.filter_sublist t).map StratPool.uuid) hu
  · exact List.Nodup.sublist ((List.filter_sublist t).map StratPool.name) hn

theorem tableInv_insert (t : Table) (p : StratPool) (h : tableInv t) :
    tableInv (Table.insert t p).2 := by
  obtain ⟨hu, hn⟩ :=
    tableInv_filter t (fun q => !(decide (q.uuid = p.uuid) || decide (q.name = p.name))) h
  constructor
  · simp only [Table.insert, List.map_cons, List.nodup_cons]
    refine ⟨?_, hu⟩
    intro hmem
    rw [List.mem_map] at hmem
    obtain ⟨q, hq, he⟩ := hmem
    rw [List.mem_filter] at hq
    have hq2 := hq.2
    simp only [Bool.not_eq_true', Bool.or_eq_false_iff, decide_eq_false_iff_not] at hq2
    exact hq2.1 he
  · simp only [Table.insert, List.map_cons, List.nodup_cons]
    refine ⟨?_, hn⟩
    intro hmem
    rw [List.mem_map] at hmem
    obtain ⟨q, hq, he⟩ := hmem
    rw [List.mem_filter] at hq
    have hq2 := hq.2
    simp only [Bool.not_eq_true', Bool.or_eq_false_iff, decide_eq_false_iff_not] at hq2
    exact hq2.2 he

theorem create_pool_tableInv (t : Table) (n : String) (u : Nat) (r : Option Nat)
    (h : tableInv t) : tableInv (StratEngine.create_pool t n u r).2 := by
  unfold StratEngine.create_pool
  cases hcr : calculate_redundancy r with
  | error e => exact h
  | ok a =>
    by_cases hc : t.contains_name n = true
    · simp only [hc, if_true]
      exact h
    · simp only [hc, if_false, Bool.false_eq_true]
      exact tableInv_insert t ⟨u, n⟩ h

theorem rename_pool_tableInv (t : Table) (u : Nat) (nn : String) (pf : Bool)
    (h : tableInv t) : tableInv (StratEngine.rename_pool t u nn pf).2 := by
  unfold StratEngine.rename_pool
  cases hg : t.get_by_uuid u with
  | none => exact h
  | some pool =>
    by_cases h1 : pool.name = nn
    · simp only [h1, if_true]
      exact h
    · by_cases h2 : t.contains_name nn = true
      · simp only [h1, h2, if_true, if_false]
        exact h
      · have hrem : tableInv (t.remove_by_uuid u) :=
          tableInv_filter t (fun p => !decide (p.uuid = u)) h
        cases pf
        · simp only [h1, h2, if_false, Bool.false_eq_true, if_true]
          exact tableInv_insert _ _ hrem
        · simp only [h1, h2, if_false, Bool.false_eq_true, if_true]
          exact tableInv_insert _ _ hrem

theorem applyOp_tableInv (t : Table) (op : EngineOp) (h : tableInv t) :
    tableInv (applyOp t op) := by
  cases op with
  | create n u r => exact create_pool_tableInv t n u r h
  | rename u n pf => exact rename_pool_tableInv t u n pf h

/-- C5: for every sequence of `create_pool` and `rename_pool` operations
applied to an engine whose registry satisfies the uniqueness invariant (in
particular the initial empty registry), the resulting registry never contains
two entries with the same UUID or two entries with the same name. -/
theorem engine_ops_preserve_uniqueness (ops : List EngineOp) (t : Table)
    (h : tableInv t) : tableInv (ops.foldl applyOp t) := by
  induction ops generalizing t with
  | nil => exact h
  | cons op rest ih => exact ih (applyOp t op) (applyOp_tableInv t op h)

/-- Witness for C5: a concrete sequence of two creations and a rename,
starting from the empty registry. -/
theorem engine_ops_preserve_uniqueness_witness :
    tableInv (List.foldl applyOp []
      [EngineOp.create "a" 1 none, EngineOp.create "b" 2 none,
       EngineOp.rename 1 "c" false]) :=
  engine_ops_preserve_uniqueness
    [EngineOp.create "a" 1 none, EngineOp.create "b" 2 none, EngineOp.rename 1 "c" false]
    [] (by decide)

/-- C4: for every pool present in the registry under `u` with its old name,
if `rename_pool` passes the pre-checks (so it reaches the persistence step)
and writing the metadata fails, then the call returns the persistence error,
the registry again contains the pool under `u` with its old name, and no
entry with UUID `u` carries any other name. -/
theorem rename_pool_rollback (t : Table) (u : Nat) (pool : StratPool) (newName : String)
    (hget : t.get_by_uuid u = some pool) (hne : ¬(pool.name = newName))
    (hcn : t.contains_name newName = false) :
    (StratEngine.rename_pool t u newName true).1 = Except.error EngErr.persistFailed ∧
    (StratEngine.rename_pool t u newName true).2.get_by_uuid u = some pool ∧
    ∀ q ∈ (StratEngine.rename_pool t u newName true).2, q.uuid = u → q = pool := by
  have huuid : pool.uuid = u := get_by_uuid_uuid t u pool hget
  have hrw : StratEngine.rename_pool t u newName true =
      (Except.error EngErr.persistFailed, ((t.remove_by_uuid u).insert pool).2) := by
    unfold StratEngine.rename_pool
    rw [hget]
    simp [hne, hcn]
  rw [hrw]
  refine ⟨rfl, ?_, ?_⟩
  · show Table.get_by_uuid (Table.insert (t.remove_by_uuid u) pool).2 u = some pool
    unfold Table.insert Table.get_by_uuid
    apply List.find?_cons_of_pos
    simp [huuid]
  · intro q hq hqu
    unfold Table.insert at hq
    rcases List.mem_cons.mp hq with h1 | h1
    · exact h1
    · exfalso
      rw [List.mem_filter] at h1
      have h1b := h1.1
      unfold Table.remove_by_uuid at h1b
      rw [List.mem_filter] at h1b
      have hker := h1b.2
      simp [hqu] at hker

/-- Witness for C4 at a concrete registry: renaming pool 1 from "p1" to "new"
with persistence failing returns the error and leaves pool 1 under its old
name. -/
theorem rename_pool_rollback_witness :
    (StratEngine.rename_pool [⟨1, "p1"⟩, ⟨2, "p2"⟩] 1 "new" true).1 =
      Except.error EngErr.persistFailed ∧
    (StratEngine.rename_pool [⟨1, "p1"⟩, ⟨2, "p2"⟩] 1 "new" true).2.get_by_uuid 1 =
      some ⟨1, "p1"⟩ := by
  have h := rename_pool_rollback [⟨1, "p1"⟩, ⟨2, "p2"⟩] 1 ⟨1, "p1"⟩ "new" rfl
    (by decide) (by decide)
  exact ⟨h.1, h.2.1⟩

/-- C6 counterexample: two discovered device groups resolve to set-up pools
with the same UUID.  `initialize` does return Invalid, but the first pool —
already set up — is NOT in the set handed to `teardown_pools`: the insert
evicted it from the registry and the eviction result is dropped, so "every
pool already set up is torn down" is false at this input. -/
theorem discovery_eviction_not_torn_down :
    setupAllPools [⟨0, "a"⟩, ⟨0, "b"⟩] = Except.error (EngErr.invalid, [⟨0, "b"⟩]) ∧
    ¬((⟨0, "a"⟩ : StratPool) ∈ [(⟨0, "b"⟩ : StratPool)]) := by decide

/-- C6 amended: if inserting a set-up pool evicts a prior entry, discovery
aborts immediately — `initialize` returns an Invalid error and hands exactly
the registry contents after the colliding insert (which exclude the evicted
pools, dropped without teardown) to `teardown_pools`; it never returns a
partially-initialized engine. -/
theorem setup_abort_on_eviction (pre : Table) (p : StratPool) (rest : List StratPool)
    (h : (Table.insert pre p).1 ≠ []) :
    setupAllPoolsAux pre (p :: rest) =
      Except.error (EngErr.invalid, (Table.insert pre p).2) := by
  unfold setupAllPoolsAux
  have hne : (Table.insert pre p).1.isEmpty = false := by
    cases he : (Table.insert pre p).1 with
    | nil => exact absurd he h
    | cons a l => rfl
  simp [hne]

/-- Witness for C6's amended claim at a concrete collision. -/
theorem setup_abort_on_eviction_witness :
    setupAllPoolsAux [⟨0, "a"⟩] [⟨0, "b"⟩] =
      Except.error (EngErr.invalid, (Table.insert [⟨0, "a"⟩] ⟨0, "b"⟩).2) :=
  setup_abort_on_eviction [⟨0, "a"⟩] ⟨0, "b"⟩ [] (by decide)

/-- C7 counterexample: with a pool named "name1" in the registry, a
`create_pool` call for "name1" requesting the unsupported redundancy code 1
fails as Invalid — the redundancy computation precedes the name check — so
the claim that every such call returns AlreadyExists is false at this input
(the registry is still unchanged). -/
theorem create_pool_redundancy_precedes_name_check :
    Table.contains_name [⟨1, "name1"⟩] "name1" = true ∧
    StratEngine.create_pool [⟨1, "name1"⟩] "name1" 2 (some 1) =
      (Except.error EngErr.invalid, [⟨1, "name1"⟩]) ∧
    ¬((StratEngine.create_pool [⟨1, "name1"⟩] "name1" 2 (some 1)).1 =
      Except.error EngErr.alreadyExists) := by decide

/-- C7 amended: for every engine state and every name already present in the
registry, `create_pool` with that name and a redundancy argument that passes
the redundancy computation returns an AlreadyExists error and leaves the
registry unchanged. -/
theorem create_pool_duplicate_name (t : Table) (n : String) (u : Nat) (red : Option Nat)
    (hr : calculate_redundancy red = Except.ok ()) (hn : t.contains_name n = true) :
    StratEngine.create_pool t n u red = (Except.error EngErr.alreadyExists, t) := by
  unfold StratEngine.create_pool
  rw [hr]
  simp [hn]

/-- Witness for C7's amended claim: duplicate name "name1" with default
redundancy. -/
theorem create_pool_duplicate_name_witness :
    StratEngine.create_pool [⟨1, "name1"⟩] "name1" 2 none =
      (Except.error EngErr.alreadyExists, [⟨1, "name1"⟩]) :=
  create_pool_duplicate_name [⟨1, "name1"⟩] "name1" 2 none rfl (by decide)

/-- C8: `rename_pool` returns NotFound when the UUID is absent from the
registry; returns AlreadyExists with no state mutation when the new name is
already used by a different pool; and returns Identity (not Renamed) with no
observable state change when the new name equals the pool's current name. -/
theorem rename_pool_pre_spec (t : Table) (u : Nat) (newName : String) (pf : Bool) :
    (t.get_by_uuid u = none →
      StratEngine.rename_pool t u newName pf = (Except.error EngErr.notFound, t)) ∧
    (∀ pool : StratPool, t.get_by_uuid u = some pool → ¬(pool.name = newName) →
      t.contains_name newName = true →
      StratEngine.rename_pool t u newName pf = (Except.error EngErr.alreadyExists, t)) ∧
    (∀ pool : StratPool, t.get_by_uuid u = some pool → pool.name = newName →
      StratEngine.rename_pool t u newName pf = (Except.ok RenameAction.identity, t)) := by
  refine ⟨?_, ?_, ?_⟩
  · intro h
    unfold StratEngine.rename_pool
    rw [h]
  · intro pool hg hne hc
    unfold StratEngine.rename_pool
    rw [hg]
    simp [hne, hc]
  · intro pool hg he
    unfold StratEngine.rename_pool
    rw [hg]
    simp [he]

/-- Witness for C8 at concrete registries: a missing UUID; a rename of pool 1
onto pool 2's name; a rename of pool 1 onto its own name. -/
theorem rename_pool_pre_spec_witness :
    StratEngine.rename_pool [] 0 "x" false = (Except.error EngErr.notFound, []) ∧
    StratEngine.rename_pool [⟨1, "p1"⟩, ⟨2, "p2"⟩] 1 "p2" false =
      (Except.error EngErr.alreadyExists, [⟨1, "p1"⟩, ⟨2, "p2"⟩]) ∧
    StratEngine.rename_pool [⟨1, "p1"⟩, ⟨2, "p2"⟩] 1 "p1" false =
      (Except.ok RenameAction.identity, [⟨1, "p1"⟩, ⟨2, "p2"⟩]) := by
  refine ⟨(rename_pool_pre_spec [] 0 "x" false).1 rfl,
    (rename_pool_pre_spec [⟨1, "p1"⟩, ⟨2, "p2"⟩] 1 "p2" false).2.1 ⟨1, "p1"⟩ rfl
      (by decide) (by decide),
    (rename_pool_pre_spec [⟨1, "p1"⟩, ⟨2, "p2"⟩] 1 "p1" false).2.2 ⟨1, "p1"⟩ rfl rfl⟩
